import Mathlib

/-!
# Verification of the entropy-estimators benchmark harness

Shallow embedding of `src/benchmark/entropy_test.py`,
`src/experiments/entropy_test.py` and `src/utils/constants.py` from the
`entropy-estimators` repository, together with theorems settling the
spec claims about them.

Modelling conventions:
* Sample values and estimator outputs are modelled as rationals (`ℚ`)
  where the claims are structural (shapes, orders, error handling,
  printing), and as reals (`ℝ`) where the claims are about closed-form
  entropy formulas involving `log`.
* An external estimator call that may raise a Python exception is
  modelled as an `Except Unit ℚ` value: `.ok v` is a normal return,
  `.error ()` is a raised exception of any type.
* NumPy's `np.nan` sentinel recorded for a failed estimator is modelled
  by `none` in an `Option ℚ` cell; a successful value `v` by `some v`.
-/

namespace EntropyEstimators

/-- A NumPy array as used by `EntropyTest.__init__`: either a
one-dimensional sequence (`ndim == 1`) or a matrix (`ndim >= 2`,
modelled as a list of rows). -/
inductive NDArray where
  | one (xs : List ℚ)
  | two (rows : List (List ℚ))
deriving DecidableEq

/-- The `ndim` attribute of the modelled array. -/
def NDArray.ndim : NDArray → Nat
  | .one _ => 1
  | .two _ => 2

/-- Embedding of `np.expand_dims(x, axis=1)`: a length-`n` vector becomes an `n × 1`
matrix whose `i`-th row is the singleton of the `i`-th value. -/
def expand_dims_axis1 (xs : List ℚ) : List (List ℚ) :=
  xs.map (fun v => [v])

/-- State of an `EntropyTest` instance after `__init__`
(both `src/benchmark/entropy_test.py` and
`src/experiments/entropy_test.py` have the identical constructor). -/
structure EntropyTest where
  x : List (List ℚ)
  entropy_true : ℚ
  verbose : Bool
deriving DecidableEq

/-- Embedding of `EntropyTest.__init__(x, entropy_true, verbose)`:
if `x.ndim == 1` then `x = np.expand_dims(x, axis=1)`; the (possibly
reshaped) matrix, the true entropy and the verbose flag are stored. -/
def EntropyTest.init (x : NDArray) (entropy_true : ℚ) (verbose : Bool) :
    EntropyTest :=
  match x with
  | .one xs => ⟨expand_dims_axis1 xs, entropy_true, verbose⟩
  | .two rows => ⟨rows, entropy_true, verbose⟩

/-- Outcomes of the two external estimator calls (`self.npeet()` and
`self.gcmi()`) on one sample matrix: each either returns a scalar or
raises. -/
structure EstCalls where
  npeet : Except Unit ℚ
  gcmi : Except Unit ℚ

/-- The `except Exception: estimated[name] = np.nan` conversion in the
benchmark `run_all`: a raised exception becomes the NaN cell `none`. -/
def toCell : Except Unit ℚ → Option ℚ
  | .ok v => some v
  | .error _ => none

/-- Embedding of `EntropyTest.run_all` from `src/benchmark/entropy_test.py`: iterate
over `(self.npeet, self.gcmi)` in that order, store each result under
the estimator's `__name__`, catching any exception as `np.nan`. -/
def run_all_benchmark (c : EstCalls) : List (String × Option ℚ) :=
  [("npeet", toCell c.npeet), ("gcmi", toCell c.gcmi)]

/-- Embedding of `EntropyTest.run_all` from `src/experiments/entropy_test.py`: the same
loop but with no `try`/`except` — a raised exception propagates out of
`run_all`. -/
def run_all_experiments (c : EstCalls) : Except Unit (List (String × ℚ)) := do
  let n ← c.npeet
  let g ← c.gcmi
  pure [("npeet", n), ("gcmi", g)]

/-- Python's fixed-point formatting `f"{q:.3f}"`, modelled on `ℚ`:
round to the nearest thousandth (ties toward `+∞` in the model; the
statements below avoid ties) and print with exactly three digits after
the decimal point. -/
def formatFixed3 (q : ℚ) : String :=
  let n : Int := ⌊q * 1000 + 1 / 2⌋
  let sign := if n < 0 then "-" else ""
  let m := n.natAbs
  let ipart := m / 1000
  let fpart := m % 1000
  let pad := if fpart < 10 then "00" else if fpart < 100 then "0" else ""
  sign ++ toString ipart ++ "." ++ pad ++ toString fpart

/-- One line printed by the verbose branch of `run_all` (both files):
`print(f"{estimator_name} H(X)={estimator_value:.3f} (true value: {self.entropy_true:.3f})")`. -/
def verboseLine (estimator_name : String) (estimator_value entropy_true : ℚ) :
    String :=
  estimator_name ++ " H(X)=" ++ formatFixed3 estimator_value ++
    " (true value: " ++ formatFixed3 entropy_true ++ ")"

/-- The verbose output of the benchmark `run_all`: one `verboseLine` per
entry of the `estimated` mapping, in insertion order. `none` cells stand
for `np.nan`, which formats as `nan`; the claim under test only concerns
numeric cells, so the NaN spelling is kept abstract as `"nan"`. -/
def run_all_benchmark_verbose (c : EstCalls) (entropy_true : ℚ) :
    List String :=
  (run_all_benchmark c).map fun cell =>
    match cell.2 with
    | some v => verboseLine cell.1 v entropy_true
    | none => cell.1 ++ " H(X)=nan (true value: " ++
        formatFixed3 entropy_true ++ ")"

/-- The line format asserted by the spec sentence
"Verbose mode prints `{estimator}: H(X)={value:.3f} (true={true:.3f})`"
(claim C4), built word for word from the spec, for comparison with
`verboseLine`. -/
def specClaimedLine (estimator : String) (value true_ : ℚ) : String :=
  estimator ++ ": H(X)=" ++ formatFixed3 value ++ " (true=" ++
    formatFixed3 true_ ++ ")"

/-- The accumulated sweep table of `entropy_test`
(`src/benchmark/entropy_test.py`): the `defaultdict(list)` keyed by
`'true'`, `'npeet'`, `'gcmi'` — the only keys ever appended to, since
`run_all` always returns exactly the two estimator keys. -/
structure SweepTable where
  trueCol : List ℚ
  npeetCol : List (Option ℚ)
  gcmiCol : List (Option ℚ)
deriving DecidableEq

/-- One iteration of the benchmark `entropy_test` loop body at parameter
`p`: generate `(x, entropy_true)`, run `run_all`, append the true value
and each estimator's value to its column. `gen p` is the true entropy
returned by the generator at `p` and `ests p` the estimator outcomes on
the generated sample. -/
def sweepStep (gen : ℚ → ℚ) (ests : ℚ → EstCalls) (t : SweepTable) (p : ℚ) :
    SweepTable :=
  { trueCol := t.trueCol ++ [gen p]
    npeetCol := t.npeetCol ++ [toCell (ests p).npeet]
    gcmiCol := t.gcmiCol ++ [toCell (ests p).gcmi] }

/-- Embedding of `entropy_test(generator, ...)` from `src/benchmark/entropy_test.py`:
fold the loop body over the given parameter sequence in order, starting
from the empty `defaultdict(list)`. -/
def entropy_test_benchmark (gen : ℚ → ℚ) (ests : ℚ → EstCalls)
    (params : List ℚ) : SweepTable :=
  params.foldl (sweepStep gen ests) ⟨[], [], []⟩

/-- Embedding of `entropy_test(generator, ...)` from `src/experiments/entropy_test.py`:
the same loop, but its `run_all` propagates estimator exceptions, so the
whole sweep aborts at the first failing estimator call. A completed
sweep returns the rows `(true value, estimated mapping)` in parameter
order. -/
def entropy_test_experiments (gen : ℚ → ℚ) (ests : ℚ → EstCalls) :
    List ℚ → Except Unit (List (ℚ × List (String × ℚ)))
  | [] => .ok []
  | p :: ps =>
    match run_all_experiments (ests p) with
    | .error e => .error e
    | .ok r =>
      match entropy_test_experiments gen ests ps with
      | .error e => .error e
      | .ok rest => .ok ((gen p, r) :: rest)

/-- Helper: the benchmark sweep's columns are pointwise maps of the
parameter sequence (proved from the `foldl` of appends). -/
theorem entropy_test_benchmark_cols (gen : ℚ → ℚ) (ests : ℚ → EstCalls)
    (params : List ℚ) :
    (entropy_test_benchmark gen ests params).trueCol = params.map gen ∧
    (entropy_test_benchmark gen ests params).npeetCol =
      params.map (fun p => toCell (ests p).npeet) ∧
    (entropy_test_benchmark gen ests params).gcmiCol =
      params.map (fun p => toCell (ests p).gcmi) := by
  suffices h : ∀ (t : SweepTable),
      (params.foldl (sweepStep gen ests) t).trueCol =
        t.trueCol ++ params.map gen ∧
      (params.foldl (sweepStep gen ests) t).npeetCol =
        t.npeetCol ++ params.map (fun p => toCell (ests p).npeet) ∧
      (params.foldl (sweepStep gen ests) t).gcmiCol =
        t.gcmiCol ++ params.map (fun p => toCell (ests p).gcmi) by
    simpa [entropy_test_benchmark] using h ⟨[], [], []⟩
  induction params with
  | nil => intro t; simp
  | cons p ps ih =>
    intro t
    obtain ⟨h1, h2, h3⟩ := ih (sweepStep gen ests t p)
    refine ⟨?_, ?_, ?_⟩
    · rw [List.foldl_cons, h1]; simp [sweepStep]
    · rw [List.foldl_cons, h2]; simp [sweepStep]
    · rw [List.foldl_cons, h3]; simp [sweepStep]

/-! ## Ground-truth entropy formulas (real-valued) -/

/-- Embedding of `_entropy_uniform` from `src/benchmark/entropy_test.py`:
`entropy_true = n_features * np.log2(param)` for samples drawn from
`np.random.uniform(low=0, high=param)`. -/
noncomputable def entropy_uniform_benchmark (n_features : ℕ) (param : ℝ) : ℝ :=
  n_features * Real.logb 2 param

/-- Embedding of `_entropy_uniform` from `src/experiments/entropy_test.py`:
`value_true = n_features * np.log2(param)` for samples drawn from
`np.random.uniform(low=-param/2, high=param/2)`. -/
noncomputable def entropy_uniform_experiments (n_features : ℕ) (param : ℝ) : ℝ :=
  n_features * Real.logb 2 param

/-- The spec's formula for the Uniform families: `d·log2(param)`. -/
noncomputable def spec_uniform_entropy (d : ℕ) (param : ℝ) : ℝ :=
  d * Real.logb 2 param

/-- Embedding of `_entropy_exponential` (identical in both files):
`value_true = n_features * (1. + np.log(param)) * np.log2(np.e)`. -/
noncomputable def entropy_exponential (n_features : ℕ) (param : ℝ) : ℝ :=
  n_features * (1 + Real.log param) * Real.logb 2 (Real.exp 1)

/-- The spec's formula for the Exponential family:
`d·(1+ln(param))·log2(e)`. -/
noncomputable def spec_exponential_entropy (d : ℕ) (s : ℝ) : ℝ :=
  d * (1 + Real.log s) * Real.logb 2 (Real.exp 1)

/-- Embedding of the draw range: `np.random.randint(low=0, high=param + 1)` draws integers from the
half-open interval `[0, param + 1)`. -/
def randint_support (param : ℤ) : Finset ℤ :=
  Finset.Ico 0 (param + 1)

/-- Embedding of `_entropy_randint` (identical in both files):
`value_true = n_features * np.log2(param)`. -/
noncomputable def entropy_randint (n_features : ℕ) (param : ℕ) : ℝ :=
  n_features * Real.logb 2 param

/-- The exact Shannon entropy of the uniform distribution on the
`param + 1` integers `{0..param}`: `d·log2(param+1)`. The code's
`entropy_randint` is documented as an approximation to this. -/
noncomputable def exact_discrete_uniform_entropy (d : ℕ) (param : ℕ) : ℝ :=
  d * Real.logb 2 (param + 1)

/-- Embedding of `np.linalg.slogdet(M)`: the pair `(sign(det M), ln |det M|)`. Only
the second component is used by the code under verification. -/
noncomputable def slogdet {d : ℕ} (M : Matrix (Fin d) (Fin d) ℝ) : ℝ × ℝ :=
  (if 0 < M.det then 1 else if M.det < 0 then -1 else 0, Real.log |M.det|)

/-- The true-entropy computation of `_entropy_normal_correlated` in
`src/experiments/entropy_test.py`:
`logdet = np.linalg.slogdet(cov)[1] * np.log2(np.e)` and
`value_true = 0.5 * (n_features * np.log2(2 * np.pi * np.e) + logdet)`. -/
noncomputable def value_true_normal_correlated (n_features : ℕ)
    (cov : Matrix (Fin n_features) (Fin n_features) ℝ) : ℝ :=
  0.5 * (n_features * Real.logb 2 (2 * Real.pi * Real.exp 1) +
    (slogdet cov).2 * Real.logb 2 (Real.exp 1))

/-- The spec's closed form for the correlated multivariate Normal:
`0.5·(d·log2(2πe) + log2(det Σ))`, written with a direct (naive)
determinant, for comparison with the slogdet-based code. -/
noncomputable def spec_normal_correlated_entropy (d : ℕ)
    (cov : Matrix (Fin d) (Fin d) ℝ) : ℝ :=
  0.5 * (d * Real.logb 2 (2 * Real.pi * Real.exp 1) +
    Real.logb 2 cov.det)

/-- Modelled from the spec: `entropy_normal_theoretic` is imported from
`utils/algebra.py`, which is not among the provided sources. The spec
describes it as `0.5·(d·log2(2πe) + log2(det Σ))` computed via a
sign-log-determinant decomposition, matching the inline computation in
`src/experiments/entropy_test.py`. -/
noncomputable def entropy_normal_theoretic {d : ℕ}
    (cov : Matrix (Fin d) (Fin d) ℝ) : ℝ :=
  0.5 * (d * Real.logb 2 (2 * Real.pi * Real.exp 1) +
    (slogdet cov).2 * Real.logb 2 (Real.exp 1))

/-- The covariance built by `generate_normal_correlated`
(`src/benchmark/entropy_test.py`): `cov = A.dot(A.T)` where `A` is the
`n_features × n_features` draw of `np.random.uniform(low=0, high=sigma)`
entries. The random draw is modelled by passing the realized `A`. -/
def generate_normal_correlated_cov {d : ℕ}
    (A : Matrix (Fin d) (Fin d) ℝ) : Matrix (Fin d) (Fin d) ℝ :=
  A * A.transpose

/-- The true entropy returned by `generate_normal_correlated`:
`entropy_true = entropy_normal_theoretic(cov)` for the realized
covariance. -/
noncomputable def generate_normal_correlated_entropy {d : ℕ}
    (A : Matrix (Fin d) (Fin d) ℝ) : ℝ :=
  entropy_normal_theoretic (generate_normal_correlated_cov A)

/-- Helper: multiplying a natural `ln x` by `log2 e` converts it to
`log2 x`, for positive `x`. This is the slogdet-to-log2 conversion used
in both correlated-Normal entropy computations. -/
theorem log_mul_logb_exp (x : ℝ) (hx : 0 < x) :
    Real.log |x| * Real.logb 2 (Real.exp 1) = Real.logb 2 x := by
  rw [abs_of_pos hx]
  unfold Real.logb
  rw [Real.log_exp]
  have h2 : Real.log 2 ≠ 0 := by
    have := Real.log_pos (by norm_num : (1:ℝ) < 2)
    exact ne_of_gt this
  field_simp

/-! ## Claim theorems -/

/-- C9: a 1-dimensional sample sequence of length `n` passed to the
`EntropyTest` constructor is stored as the `n × 1` single-feature matrix
with the same values in the same order; an input that is already a
matrix is stored unchanged. -/
theorem C9_init_reshape (xs : List ℚ) (rows : List (List ℚ)) (t : ℚ)
    (v : Bool) :
    (EntropyTest.init (.one xs) t v).x = xs.map (fun a => [a]) ∧
    (EntropyTest.init (.one xs) t v).x.length = xs.length ∧
    (∀ i : ℕ, (EntropyTest.init (.one xs) t v).x[i]? =
      (xs[i]?).map (fun a => [a])) ∧
    (EntropyTest.init (.two rows) t v).x = rows := by
  refine ⟨rfl, by simp [EntropyTest.init, expand_dims_axis1], ?_, rfl⟩
  intro i
  simp [EntropyTest.init, expand_dims_axis1]

/-- C10: the benchmark `run_all` returns a mapping whose key sequence is
exactly `["npeet", "gcmi"]` in insertion order, for every combination of
estimator success and failure — both estimators are always attempted. -/
theorem C10_run_all_keys (c : EstCalls) :
    (run_all_benchmark c).map Prod.fst = ["npeet", "gcmi"] ∧
    (run_all_benchmark c).length = 2 :=
  ⟨rfl, rfl⟩

/-- C1 counterexample: in `src/experiments/entropy_test.py`, `run_all`
has no `try`/`except`, so an estimator error propagates and the sweep
aborts instead of recording NaN and continuing: with the npeet call
raising at every point, the two-point sweep returns an error rather than
a completed two-row table. -/
theorem C1_counterexample :
    entropy_test_experiments (fun _ => 0)
      (fun _ => ⟨Except.error (), Except.ok 0⟩) [1, 2] =
      Except.error () := rfl

/-- C1 (amended): in the benchmark harness, if an estimator call raises
at a sweep point then that cell is recorded as NaN and the sweep still
completes over all parameter points; the experiments harness instead
propagates the error (see the counterexample). -/
theorem C1_nan_recorded (gen : ℚ → ℚ) (ests : ℚ → EstCalls)
    (params : List ℚ) (p : ℚ) (i : ℕ) (hp : params[i]? = some p) :
    (entropy_test_benchmark gen ests params).trueCol.length =
      params.length ∧
    (entropy_test_benchmark gen ests params).npeetCol.length =
      params.length ∧
    (entropy_test_benchmark gen ests params).gcmiCol.length =
      params.length ∧
    ((ests p).npeet = Except.error () →
      (entropy_test_benchmark gen ests params).npeetCol[i]? =
        some none) ∧
    ((ests p).gcmi = Except.error () →
      (entropy_test_benchmark gen ests params).gcmiCol[i]? =
        some none) := by
  obtain ⟨h1, h2, h3⟩ := entropy_test_benchmark_cols gen ests params
  have hi : i < params.length := by
    by_contra hlt
    rw [List.getElem?_eq_none (by omega)] at hp
    exact Option.noConfusion hp
  have hpi : params[i] = p := by
    rw [List.getElem?_eq_getElem hi] at hp
    exact Option.some.inj hp
  refine ⟨by simp [h1], by simp [h2], by simp [h3], ?_, ?_⟩
  · intro herr
    rw [h2, List.getElem?_map, List.getElem?_eq_getElem hi, hpi]
    simp [toCell, herr]
  · intro herr
    rw [h3, List.getElem?_map, List.getElem?_eq_getElem hi, hpi]
    simp [toCell, herr]

/-- Witness for `C1_nan_recorded` at a concrete failing sweep. -/
theorem C1_nan_recorded_witness :
    ([1, 2] : List ℚ)[0]? = some 1 ∧
    ((entropy_test_benchmark (fun _ => 0)
        (fun _ => ⟨Except.error (), Except.ok 0⟩) [1, 2]).trueCol.length =
      ([1, 2] : List ℚ).length ∧
    (entropy_test_benchmark (fun _ => 0)
        (fun _ => ⟨Except.error (), Except.ok 0⟩) [1, 2]).npeetCol.length =
      ([1, 2] : List ℚ).length ∧
    (entropy_test_benchmark (fun _ => 0)
        (fun _ => ⟨Except.error (), Except.ok 0⟩) [1, 2]).gcmiCol.length =
      ([1, 2] : List ℚ).length ∧
    (((fun _ => (⟨Except.error (), Except.ok 0⟩ : EstCalls)) (1 : ℚ)).npeet =
        Except.error () →
      (entropy_test_benchmark (fun _ => 0)
        (fun _ => ⟨Except.error (), Except.ok 0⟩) [1, 2]).npeetCol[0]? =
        some none) ∧
    (((fun _ => (⟨Except.error (), Except.ok 0⟩ : EstCalls)) (1 : ℚ)).gcmi =
        Except.error () →
      (entropy_test_benchmark (fun _ => 0)
        (fun _ => ⟨Except.error (), Except.ok 0⟩) [1, 2]).gcmiCol[0]? =
        some none)) :=
  ⟨rfl, C1_nan_recorded (fun _ => 0)
    (fun _ => ⟨Except.error (), Except.ok 0⟩) [1, 2] 1 0 rfl⟩

/-- C6: the benchmark sweep table has one row per parameter value, a
true column plus one column per estimator, and row `i` corresponds to
the `i`-th parameter of the given sequence — no reordering. -/
theorem C6_sweep_table (gen : ℚ → ℚ) (ests : ℚ → EstCalls)
    (params : List ℚ) (i : ℕ) (hi : i < params.length) :
    (entropy_test_benchmark gen ests params).trueCol.length =
      params.length ∧
    (entropy_test_benchmark gen ests params).npeetCol.length =
      params.length ∧
    (entropy_test_benchmark gen ests params).gcmiCol.length =
      params.length ∧
    (entropy_test_benchmark gen ests params).trueCol[i]? =
      some (gen params[i]) ∧
    (entropy_test_benchmark gen ests params).npeetCol[i]? =
      some (toCell (ests params[i]).npeet) ∧
    (entropy_test_benchmark gen ests params).gcmiCol[i]? =
      some (toCell (ests params[i]).gcmi) := by
  obtain ⟨h1, h2, h3⟩ := entropy_test_benchmark_cols gen ests params
  refine ⟨by simp [h1], by simp [h2], by simp [h3], ?_, ?_, ?_⟩
  · rw [h1, List.getElem?_map, List.getElem?_eq_getElem hi]; rfl
  · rw [h2, List.getElem?_map, List.getElem?_eq_getElem hi]; rfl
  · rw [h3, List.getElem?_map, List.getElem?_eq_getElem hi]; rfl

/-- Witness for `C6_sweep_table` on a concrete two-point sweep. -/
theorem C6_sweep_table_witness :
    1 < ([3, 7] : List ℚ).length ∧
    ((entropy_test_benchmark (fun p : ℚ => p + 1)
        (fun _ => ⟨Except.ok 5, Except.error ()⟩) [3, 7]).trueCol.length =
      ([3, 7] : List ℚ).length ∧
    (entropy_test_benchmark (fun p : ℚ => p + 1)
        (fun _ => ⟨Except.ok 5, Except.error ()⟩) [3, 7]).npeetCol.length =
      ([3, 7] : List ℚ).length ∧
    (entropy_test_benchmark (fun p : ℚ => p + 1)
        (fun _ => ⟨Except.ok 5, Except.error ()⟩) [3, 7]).gcmiCol.length =
      ([3, 7] : List ℚ).length ∧
    (entropy_test_benchmark (fun p : ℚ => p + 1)
        (fun _ => ⟨Except.ok 5, Except.error ()⟩) [3, 7]).trueCol[1]? =
      some ((fun p : ℚ => p + 1) (([3, 7] : List ℚ)[1])) ∧
    (entropy_test_benchmark (fun p : ℚ => p + 1)
        (fun _ => ⟨Except.ok 5, Except.error ()⟩) [3, 7]).npeetCol[1]? =
      some (toCell (((fun _ => (⟨Except.ok 5, Except.error ()⟩ : EstCalls))
        (([3, 7] : List ℚ)[1])).npeet)) ∧
    (entropy_test_benchmark (fun p : ℚ => p + 1)
        (fun _ => ⟨Except.ok 5, Except.error ()⟩) [3, 7]).gcmiCol[1]? =
      some (toCell (((fun _ => (⟨Except.ok 5, Except.error ()⟩ : EstCalls))
        (([3, 7] : List ℚ)[1])).gcmi))) :=
  ⟨by norm_num, C6_sweep_table (fun p : ℚ => p + 1)
    (fun _ => ⟨Except.ok 5, Except.error ()⟩) [3, 7] 1 (by norm_num)⟩

/-- C4 counterexample: the verbose line actually printed by `run_all`
differs from the spec's claimed template
`{estimator}: H(X)={value:.3f} (true={true:.3f})` already at
`npeet, value=1, true=2`: the code prints
`npeet H(X)=1.000 (true value: 2.000)`, not
`npeet: H(X)=1.000 (true=2.000)`. -/
theorem C4_counterexample :
    verboseLine "npeet" 1 2 ≠ specClaimedLine "npeet" 1 2 := by decide

/-- C4 (amended): verbose mode prints, for each estimator in insertion
order, the line `{estimator} H(X)={value:.3f} (true value: {true:.3f})`
— estimator name, a space (no colon), `H(X)=` and the value to three
decimals, then ` (true value: ` and the true value to three decimals. -/
theorem C4_verbose_format (np g t : ℚ) :
    run_all_benchmark_verbose ⟨Except.ok np, Except.ok g⟩ t =
      [verboseLine "npeet" np t, verboseLine "gcmi" g t] ∧
    verboseLine "npeet" (1 : ℚ) 2 =
      "npeet H(X)=1.000 (true value: 2.000)" := by
  refine ⟨rfl, ?_⟩
  have h1 : ⌊(1:ℚ) * 1000 + 1 / 2⌋ = 1000 := by norm_num
  have h2 : ⌊(2:ℚ) * 1000 + 1 / 2⌋ = 2000 := by norm_num
  simp only [verboseLine, formatFixed3, h1, h2]
  decide

/-- C5: both Uniform generators — `Uniform(0, param)^d` in the benchmark
file and `Uniform(-param/2, param/2)^d` in the experiments file — return
the true entropy `d·log2(param)`; the experiments sampling interval
indeed has width `param`. -/
theorem C5_uniform_entropy (d : ℕ) (w : ℝ) :
    entropy_uniform_benchmark d w = spec_uniform_entropy d w ∧
    entropy_uniform_experiments d w = spec_uniform_entropy d w ∧
    w / 2 - -(w / 2) = w :=
  ⟨rfl, rfl, by ring⟩

/-- C8: the Exponential generator (identical in both files) returns the
true entropy `d·(1+ln(scale))·log2(e)`, which also equals
`d·(1+ln(scale))/ln 2`. -/
theorem C8_exponential_entropy (d : ℕ) (s : ℝ) :
    entropy_exponential d s = spec_exponential_entropy d s ∧
    entropy_exponential d s = d * (1 + Real.log s) / Real.log 2 := by
  refine ⟨rfl, ?_⟩
  unfold entropy_exponential Real.logb
  rw [Real.log_exp]
  ring

/-- C7: the randint generator draws from the integer set `{0..param}`
(`np.random.randint` with `low=0`, `high=param+1`) and returns the
continuous approximation `d·log2(param)`, which is strictly below (hence
not equal to) the exact discrete entropy `d·log2(param+1)`. -/
theorem C7_randint (d param : ℕ) (k : ℤ) (hd : 1 ≤ d) (hp : 1 ≤ param) :
    (k ∈ randint_support param ↔ 0 ≤ k ∧ k ≤ param) ∧
    entropy_randint d param = d * Real.logb 2 param ∧
    entropy_randint d param < exact_discrete_uniform_entropy d param := by
  refine ⟨?_, rfl, ?_⟩
  · simp [randint_support, Finset.mem_Ico, Int.lt_add_one_iff]
  · unfold entropy_randint exact_discrete_uniform_entropy
    have hpR : (0:ℝ) < param := by exact_mod_cast hp
    have hdR : (0:ℝ) < d := by exact_mod_cast hd
    have hlog : Real.logb 2 param < Real.logb 2 (param + 1) :=
      Real.logb_lt_logb (by norm_num) hpR (by linarith)
    exact mul_lt_mul_of_pos_left hlog hdR

/-- Witness for `C7_randint` at `d = 1`, `param = 2`, `k = 1`. -/
theorem C7_randint_witness :
    (1 ≤ 1 ∧ 1 ≤ 2) ∧
    (((1:ℤ) ∈ randint_support 2 ↔ (0:ℤ) ≤ 1 ∧ (1:ℤ) ≤ 2) ∧
      entropy_randint 1 2 = (1:ℕ) * Real.logb 2 (2:ℕ) ∧
      entropy_randint 1 2 < exact_discrete_uniform_entropy 1 2) :=
  ⟨⟨le_refl 1, by norm_num⟩, C7_randint 1 2 1 (le_refl 1) (by norm_num)⟩

/-- C2: for every dimension `d` and positive-definite covariance (any
`Σ` with `det Σ > 0`), the slogdet-based computation of
`src/experiments/entropy_test.py` equals the closed form
`0.5·(d·log2(2πe) + log2(det Σ))` written with a naive determinant. -/
theorem C2_normal_correlated (d : ℕ)
    (cov : Matrix (Fin d) (Fin d) ℝ) (hdet : 0 < cov.det) :
    value_true_normal_correlated d cov =
      spec_normal_correlated_entropy d cov := by
  unfold value_true_normal_correlated spec_normal_correlated_entropy
    slogdet
  rw [log_mul_logb_exp cov.det hdet]

/-- Witness for `C2_normal_correlated` at the 1×1 identity covariance. -/
theorem C2_normal_correlated_witness :
    (0:ℝ) < (1 : Matrix (Fin 1) (Fin 1) ℝ).det ∧
    value_true_normal_correlated 1 (1 : Matrix (Fin 1) (Fin 1) ℝ) =
      spec_normal_correlated_entropy 1 (1 : Matrix (Fin 1) (Fin 1) ℝ) :=
  ⟨by norm_num [Matrix.det_one],
   C2_normal_correlated 1 1 (by norm_num [Matrix.det_one])⟩

/-- C3: the benchmark correlated-Normal generator builds its covariance
as `Σ = A·Aᵀ` (positive semi-definite for every realized `A`) and
returns `entropy_normal_theoretic` of the realized `Σ`; moreover the
result is not a function of the parameter alone — two draws with entries
in the same range `[0, 2]` can give different entropies. -/
theorem C3_generate_normal_correlated (d : ℕ)
    (A : Matrix (Fin d) (Fin d) ℝ) :
    (generate_normal_correlated_cov A).PosSemidef ∧
    generate_normal_correlated_entropy A =
      entropy_normal_theoretic (A * A.transpose) ∧
    ∃ B C : Matrix (Fin 1) (Fin 1) ℝ,
      (∀ i j, B i j ∈ Set.Icc (0:ℝ) 2) ∧
      (∀ i j, C i j ∈ Set.Icc (0:ℝ) 2) ∧
      generate_normal_correlated_entropy B ≠
        generate_normal_correlated_entropy C := by
  refine ⟨?_, rfl, ?_⟩
  · have h := Matrix.posSemidef_self_mul_conjTranspose A
    rwa [Matrix.conjTranspose_eq_transpose_of_trivial] at h
  · refine ⟨!![1], !![2], ?_, ?_, ?_⟩
    · intro i j
      fin_cases i; fin_cases j
      constructor <;> norm_num
    · intro i j
      fin_cases i; fin_cases j
      constructor <;> norm_num
    · have hdetB :
          (generate_normal_correlated_cov (!![1] :
            Matrix (Fin 1) (Fin 1) ℝ)).det = 1 := by
        rw [generate_normal_correlated_cov, Matrix.det_mul,
          Matrix.det_transpose, Matrix.det_fin_one_of]
        norm_num
      have hdetC :
          (generate_normal_correlated_cov (!![2] :
            Matrix (Fin 1) (Fin 1) ℝ)).det = 4 := by
        rw [generate_normal_correlated_cov, Matrix.det_mul,
          Matrix.det_transpose, Matrix.det_fin_one_of]
        norm_num
      unfold generate_normal_correlated_entropy entropy_normal_theoretic
        slogdet
      rw [hdetB, hdetC]
      have h4 : Real.log |(4:ℝ)| * Real.logb 2 (Real.exp 1) =
          Real.logb 2 4 := log_mul_logb_exp 4 (by norm_num)
      have h1 : Real.log |(1:ℝ)| = 0 := by norm_num
      rw [h4, h1]
      have hlogb4 : Real.logb 2 4 = 2 := by
        have h42 : (4:ℝ) = 2 ^ (2:ℕ) := by norm_num
        rw [Real.logb, h42, Real.log_pow]
        have h2 : Real.log 2 ≠ 0 :=
          ne_of_gt (Real.log_pos (by norm_num))
        field_simp
      intro hcontra
      rw [hlogb4] at hcontra
      have hc := mul_left_cancel₀ (by norm_num : (0.5:ℝ) ≠ 0) hcontra
      simp at hc

end EntropyEstimators
